import Mathlib

/-!
Verification development for the jobportal repository (an Express/Mongoose
job-board backend).  The document store is modelled as explicit lists of
records; Mongo ObjectIds are abstracted to natural numbers; each route
handler becomes a pure function from a store (plus request data) to an HTTP
status code and the successor store.  Timestamps are naturals supplied by
the caller.  Password hashing and JWT verification are external libraries:
hashing is modelled as an abstract tagging function, and the outcome of
token verification is modelled by the `AuthHeader` type (missing header,
token that fails verification, or a token whose decoded subject is a user
id).
-/

namespace JobPortal

/-- Profile subdocument of the user schema (models/userModel.js). -/
structure Profile where
  phone : Option String := none
  address : Option String := none
  resume : Option String := none
  skills : List String := []
  experience : Option String := none
  education : Option String := none
deriving DecidableEq, Repr

/-- User document (models/userModel.js).  `role` is constrained to
"user"/"admin" by the schema enum, enforced at creation. -/
structure UserR where
  id : Nat
  name : String
  email : String
  password : String
  role : String
  profile : Profile := {}
deriving DecidableEq, Repr

/-- Job document (models/jobModel.js).  Inert payload fields of the schema
(salary, requirements, benefits, skills, experience, companyLogo,
applicationDeadline, contactEmail) are elided: no route branches on them. -/
structure JobR where
  id : Nat
  title : String
  company : String
  location : String
  type : String
  description : String
  category : String := ""
  postedBy : Nat := 0
  isActive : Bool := true
  applicationCount : Int := 0
  createdAt : Nat := 0
deriving DecidableEq, Repr

/-- Application document (models/applicationModel.js). -/
structure AppR where
  id : Nat
  job : Nat
  applicant : Nat
  status : String := "pending"
  coverLetter : Option String := none
  resume : Option String := none
  portfolio : Option String := none
  linkedin : Option String := none
  github : Option String := none
  expectedSalary : Option String := none
  availability : Option String := none
  additionalInfo : Option String := none
  createdAt : Nat := 0
deriving DecidableEq, Repr

/-- Optional extra fields accepted by POST /api/applications
(applicationsRoute, request body). -/
structure AppExtras where
  portfolioField : Option String := none
  linkedinField : Option String := none
  githubField : Option String := none
  expectedSalaryField : Option String := none
  availabilityField : Option String := none
  additionalInfoField : Option String := none
deriving DecidableEq, Repr

/-- The document store: the three Mongo collections plus a fresh-id source
standing for ObjectId generation. -/
structure Store where
  users : List UserR := []
  jobs : List JobR := []
  apps : List AppR := []
  nextId : Nat := 0
deriving DecidableEq, Repr

/-- User.findById. -/
def findUser (s : Store) (uid : Nat) : Option UserR :=
  s.users.find? (fun u => u.id == uid)

/-- User.findOne({email}). -/
def findUserByEmail (s : Store) (email : String) : Option UserR :=
  s.users.find? (fun u => u.email == email)

/-- Job.findById. -/
def findJob (s : Store) (jid : Nat) : Option JobR :=
  s.jobs.find? (fun j => j.id == jid)

/-- Application.findById. -/
def findApp (s : Store) (aid : Nat) : Option AppR :=
  s.apps.find? (fun a => a.id == aid)

/-- Application.findOne({job, applicant}) — the duplicate-application
fast-path check used by both apply endpoints. -/
def findDuplicateApp (s : Store) (jid uid : Nat) : Option AppR :=
  s.apps.find? (fun a => a.job == jid && a.applicant == uid)

/-- Number of live Application documents referencing a job
(Application.countDocuments({job})). -/
def liveAppCount (s : Store) (jid : Nat) : Nat :=
  (s.apps.filter (fun a => a.job == jid)).length

/-- Job.findByIdAndUpdate(jid, {$inc: {applicationCount: d}}, {new:true}):
returns the updated document when the job exists (else `none`) together
with the successor store; a no-op on the store when the job is absent. -/
def incJobApplicationCount (s : Store) (jid : Nat) (d : Int) : Option JobR × Store :=
  match findJob s jid with
  | none => (none, s)
  | some j =>
      (some { j with applicationCount := j.applicationCount + d },
       { s with jobs := s.jobs.map (fun k =>
           if k.id = jid then { k with applicationCount := k.applicationCount + d } else k) })

/-- The Application document built by Application.create in the two apply
handlers (status defaults to "pending", appliedAt/createdAt to now). -/
def mkApplication (now aid jid uid : Nat) (coverLetter resume : Option String)
    (ex : AppExtras) : AppR :=
  match ex with
  | ⟨pf, li, gh, es, av, ai⟩ =>
      { id := aid, job := jid, applicant := uid, status := "pending",
        coverLetter := coverLetter, resume := resume,
        portfolio := pf, linkedin := li, github := gh,
        expectedSalary := es, availability := av, additionalInfo := ai,
        createdAt := now }

/-- The create-then-increment tail of POST /api/jobs/:id/apply
(jobsRoute.js 371-382): Application.create, then $inc the job counter; the
update's result is ignored, so nothing is rolled back if the job is gone.
Factored out so it can also be run against a store in which the job was
deleted concurrently after the handler's existence check. -/
def applyCreatePhaseJobs (s : Store) (now jid uid : Nat)
    (coverLetter resume : Option String) : Nat × Store :=
  let app := mkApplication now s.nextId jid uid coverLetter resume {}
  let s1 := { s with apps := s.apps ++ [app], nextId := s.nextId + 1 }
  let s2 := (incJobApplicationCount s1 jid 1).2
  (201, s2)

/-- The create-then-increment tail of POST /api/applications
(applicationsRoute = unnamed/part_003, 234-258): Application.create, then
$inc with {new:true}; when the update reports the job missing, the
just-created application is deleted and 404 is returned. -/
def applyCreatePhaseApps (s : Store) (now jid uid : Nat)
    (coverLetter resume : Option String) (ex : AppExtras) : Nat × Store :=
  let app := mkApplication now s.nextId jid uid coverLetter resume ex
  let s1 := { s with apps := s.apps ++ [app], nextId := s.nextId + 1 }
  match incJobApplicationCount s1 jid 1 with
  | (none, s2) => (404, { s2 with apps := s2.apps.filter (fun a => a.id ≠ app.id) })
  | (some _, s2) => (201, s2)

/-- POST /api/jobs/:id/apply (jobsRoute.js 347-399): 404 when the job is
absent, 400 when a duplicate (job, applicant) application exists, else the
create-then-increment phase. -/
def applyToJobRoute (s : Store) (now jid uid : Nat)
    (coverLetter resume : Option String) : Nat × Store :=
  match findJob s jid with
  | none => (404, s)
  | some _ =>
      match findDuplicateApp s jid uid with
      | some _ => (400, s)
      | none => applyCreatePhaseJobs s now jid uid coverLetter resume

/-- POST /api/applications (applicationsRoute 180-290): required-field
checks on jobId and coverLetter, job existence, duplicate check, then the
create-then-increment phase with rollback.  ObjectId strings are abstracted
to Nat ids, which subsumes the 24-hex format validation. -/
def createApplicationRoute (s : Store) (now : Nat) (jobId : Option Nat) (uid : Nat)
    (coverLetter resume : Option String) (ex : AppExtras) : Nat × Store :=
  match jobId with
  | none => (400, s)
  | some jid =>
      match coverLetter with
      | none => (400, s)
      | some _ =>
          match findJob s jid with
          | none => (404, s)
          | some _ =>
              match findDuplicateApp s jid uid with
              | some _ => (400, s)
              | none => applyCreatePhaseApps s now jid uid coverLetter resume ex

/-- DELETE /api/applications/:id (applicationsRoute 310-340): 404 when
absent, 403 unless requester is the applicant or an admin, else delete the
application and decrement the job's counter. -/
def deleteApplicationRoute (s : Store) (requester : UserR) (aid : Nat) : Nat × Store :=
  match findApp s aid with
  | none => (404, s)
  | some app =>
      if app.applicant ≠ requester.id ∧ requester.role ≠ "admin" then (403, s)
      else
        let s1 := { s with apps := s.apps.filter (fun a => a.id ≠ aid) }
        let s2 := (incJobApplicationCount s1 app.job (-1)).2
        (200, s2)

/-- DELETE /api/admin/applications/:id (adminRoute.js 514-535): 404 when
absent, else delete the application.  The handler performs no counter
update on the referenced job. -/
def adminDeleteApplicationRoute (s : Store) (aid : Nat) : Nat × Store :=
  match findApp s aid with
  | none => (404, s)
  | some _ => (200, { s with apps := s.apps.filter (fun a => a.id ≠ aid) })

/-- The order in which a job-deletion handler touches the store. -/
inductive DeleteStep where
  | appsCascaded (jid : Nat)
  | jobRemoved (jid : Nat)
deriving DecidableEq, Repr

/-- DELETE /api/jobs/:id (jobsRoute.js 304-321): findByIdAndDelete the job
(404 when absent), then Application.deleteMany({job}).  The step trace
records the order of the two store writes. -/
def deleteJobRoute (s : Store) (jid : Nat) : Nat × Store × List DeleteStep :=
  match findJob s jid with
  | none => (404, s, [])
  | some _ =>
      let s1 := { s with jobs := s.jobs.filter (fun j => j.id ≠ jid) }
      let s2 := { s1 with apps := s1.apps.filter (fun a => a.job ≠ jid) }
      (200, s2, [DeleteStep.jobRemoved jid, DeleteStep.appsCascaded jid])

/-- DELETE /api/admin/jobs/:id (adminRoute.js 550-576): findById (404 when
absent), then Application.deleteMany({job}) first and
Job.findByIdAndDelete second. -/
def adminDeleteJobRoute (s : Store) (jid : Nat) : Nat × Store × List DeleteStep :=
  match findJob s jid with
  | none => (404, s, [])
  | some _ =>
      let s1 := { s with apps := s.apps.filter (fun a => a.job ≠ jid) }
      let s2 := { s1 with jobs := s1.jobs.filter (fun j => j.id ≠ jid) }
      (200, s2, [DeleteStep.appsCascaded jid, DeleteStep.jobRemoved jid])

/-- DELETE /api/admin/users/:id (adminRoute.js 139-167): 404 when absent,
400 when the target holds the admin role, else delete the user and cascade
delete their applications. -/
def adminDeleteUserRoute (s : Store) (uid : Nat) : Nat × Store :=
  match findUser s uid with
  | none => (404, s)
  | some u =>
      if u.role = "admin" then (400, s)
      else (200, { s with users := s.users.filter (fun v => v.id ≠ uid),
                          apps := s.apps.filter (fun a => a.applicant ≠ uid) })

/-- GET /api/admin/applications/:id (adminRoute.js 428-449): lookup of a
single application, 404 when absent. -/
def adminGetApplicationRoute (s : Store) (aid : Nat) : Nat × Option AppR :=
  match findApp s aid with
  | none => (404, none)
  | some a => (200, some a)

/-- PUT /api/applications/:id/status (applicationsRoute 119-150):
findByIdAndUpdate {status} with {new:true} and no validation of the value
(update validators are not enabled), 404 when absent. -/
def updateApplicationStatusRoute (s : Store) (aid : Nat) (status : String) : Nat × Store :=
  match findApp s aid with
  | none => (404, s)
  | some _ =>
      (200, { s with apps := s.apps.map (fun a =>
          if a.id = aid then { a with status := status } else a) })

/-- PUT /api/admin/applications/:id/status (adminRoute.js 467-502): the
value is validated against ["pending", "accepted", "rejected"] (400
otherwise), then the same findByIdAndUpdate as the applications route. -/
def adminUpdateApplicationStatusRoute (s : Store) (aid : Nat) (status : String) : Nat × Store :=
  if ¬ (["pending", "accepted", "rejected"].contains status) then (400, s)
  else updateApplicationStatusRoute s aid status

/-- An update payload for PUT /api/auth/profile; absent entries leave the
stored field unchanged (arbitrary JSON bodies are restricted to the schema
fields, which is what findByIdAndUpdate persists). -/
structure UserUpdate where
  name : Option String := none
  email : Option String := none
  password : Option String := none
  role : Option String := none
  profile : Option Profile := none
deriving DecidableEq, Repr

/-- Application of an update document to a user record, field by field, as
findByIdAndUpdate does. -/
def applyUserUpdate (u : UserR) (up : UserUpdate) : UserR :=
  { u with
    name := up.name.getD u.name
    email := up.email.getD u.email
    password := up.password.getD u.password
    role := up.role.getD u.role
    profile := up.profile.getD u.profile }

/-- PUT /api/auth/profile (authRoute.js 152-178): the password and role
entries are deleted from the payload, then findByIdAndUpdate applies the
rest; the handler responds 200 regardless. -/
def updateProfileRoute (s : Store) (uid : Nat) (up : UserUpdate) : Nat × Store :=
  let up' := { up with password := none, role := none }
  (200, { s with users := s.users.map (fun u =>
      if u.id = uid then applyUserUpdate u up' else u) })

/-- Stand-in for the external bcrypt hash applied by the user schema's
pre-save hook (models/userModel.js 58-65). -/
def hashPassword (p : String) : String := "bcrypt$" ++ p

/-- POST /api/auth/register (authRoute.js 25-63): no auth middleware; 400
when the email is taken; role falls back to "user" exactly when the
request's role field is JS-falsy (absent/null, or the empty string, per
`role || "user"`); User.create enforces the schema's role enum
(a ValidationError surfaces as 500 through the generic catch). -/
def registerRoute (s : Store) (name email password : String)
    (role : Option String) : Nat × Store :=
  match findUserByEmail s email with
  | some _ => (400, s)
  | none =>
      let assignedRole := match role with
        | none => "user"
        | some r => if r = "" then "user" else r
      if assignedRole ≠ "user" ∧ assignedRole ≠ "admin" then (500, s)
      else
        (201, { s with
          users := s.users ++ [{ id := s.nextId, name := name, email := email,
                                 password := hashPassword password, role := assignedRole }],
          nextId := s.nextId + 1 })

/-- Outcome of bearer-token extraction and jwt.verify on a request:
`missing` — no Authorization header; `invalidToken` — jwt.verify throws
(malformed, bad signature, or expired); `validToken uid` — verification
succeeded and the decoded subject is uid. -/
inductive AuthHeader where
  | missing
  | invalidToken
  | validToken (uid : Nat)
deriving DecidableEq, Repr

/-- The authenticate middleware (unnamed/part_003, 357-386): 401 when the
token is missing, fails verification, or decodes to a user id with no
matching User; otherwise the resolved user. -/
def authenticateMw (s : Store) (h : AuthHeader) : Except Nat UserR :=
  match h with
  | .missing => .error 401
  | .invalidToken => .error 401
  | .validToken uid =>
      match findUser s uid with
      | none => .error 401
      | some u => .ok u

/-- The authorize(...roles) middleware (unnamed/part_003, 400-417): 401
when no user was attached, 403 when the user's role is outside the allowed
set. -/
def authorizeMw (roles : List String) (u : Option UserR) : Except Nat Unit :=
  match u with
  | none => .error 401
  | some usr => if roles.contains usr.role then .ok () else .error 403

/-- A route guarded by authenticate alone: the handler runs only when the
middleware resolves a user. -/
def runAuthenticated (s : Store) (h : AuthHeader)
    (handler : UserR → Store → Nat × Store) : Nat × Store :=
  match authenticateMw s h with
  | .error c => (c, s)
  | .ok u => handler u s

/-- A route guarded by authenticate then authorize(roles). -/
def runProtected (s : Store) (h : AuthHeader) (roles : List String)
    (handler : UserR → Store → Nat × Store) : Nat × Store :=
  match authenticateMw s h with
  | .error c => (c, s)
  | .ok u =>
      match authorizeMw roles (some u) with
      | .error c => (c, s)
      | .ok _ => handler u s

/-- Whether the second character list occurs at the head of the first. -/
def startsWithChars : List Char → List Char → Bool
  | _, [] => true
  | [], _ :: _ => false
  | c :: cs, d :: ds => c == d && startsWithChars cs ds

/-- Whether the second character list occurs contiguously anywhere in the
first. -/
def hasSubChars : List Char → List Char → Bool
  | l, sub =>
      startsWithChars l sub ||
        match l with
        | [] => false
        | _ :: cs => hasSubChars cs sub

/-- Characterwise lower-casing of a string's character list. -/
def lowerChars (l : List Char) : List Char := l.map Char.toLower

/-- Case-insensitive substring containment — the meaning of the
{$regex: q, $options: "i"} filters built by GET /api/jobs for plain
(metacharacter-free) search strings. -/
def containsCI (hay needle : String) : Bool :=
  hasSubChars (lowerChars hay.toList) (lowerChars needle.toList)

/-- The $or clause built for the search keyword (jobsRoute.js 78-85):
title, company or description matches case-insensitively. -/
def jobSearchMatch (q : String) (j : JobR) : Bool :=
  containsCI j.title q || containsCI j.company q || containsCI j.description q

/-- The Mongo query object built by GET /api/jobs (jobsRoute.js 62-100):
isActive, an $or over title/company/description for the search keyword,
and the optional location/type/category filters. -/
def jobMatchesQuery (search loc ty cat : Option String) (j : JobR) : Bool :=
  j.isActive
  && (match search with
      | none => true
      | some q => jobSearchMatch q j)
  && (match loc with
      | none => true
      | some l => containsCI j.location l)
  && (match ty with
      | none => true
      | some t => j.type == t)
  && (match cat with
      | none => true
      | some c => containsCI j.category c)

/-- Insertion into a newest-first (createdAt-descending) list. -/
def insertNewest (j : JobR) : List JobR → List JobR
  | [] => [j]
  | k :: ks => if k.createdAt ≤ j.createdAt then j :: k :: ks else k :: insertNewest j ks

/-- Stable sort by createdAt descending — .sort({createdAt: -1}). -/
def sortNewestFirst : List JobR → List JobR
  | [] => []
  | j :: js => insertNewest j (sortNewestFirst js)

/-- GET /api/jobs (jobsRoute.js 62-122): filter by the query, sort newest
first, then the cursor applies skip((page-1)*limit) before limit(limit). -/
def listJobsRoute (s : Store) (search loc ty cat : Option String)
    (page limit : Nat) : List JobR :=
  ((sortNewestFirst (s.jobs.filter (jobMatchesQuery search loc ty cat))).drop
      ((page - 1) * limit)).take limit

/-! ### Basic lemmas about the embedded operations -/

/-- The counter update touches only the jobs collection. -/
theorem apps_incJobApplicationCount (s : Store) (jid : Nat) (d : Int) :
    ((incJobApplicationCount s jid d).2).apps = s.apps := by
  unfold incJobApplicationCount
  cases h : findJob s jid <;> simp

/-- The counter update touches only the jobs collection. -/
theorem users_incJobApplicationCount (s : Store) (jid : Nat) (d : Int) :
    ((incJobApplicationCount s jid d).2).users = s.users := by
  unfold incJobApplicationCount
  cases h : findJob s jid <;> simp

/-- A freshly created application references the requested job. -/
theorem mkApplication_job (now aid jid uid : Nat) (c r : Option String) (ex : AppExtras) :
    (mkApplication now aid jid uid c r ex).job = jid := by
  cases ex; rfl

/-- A freshly created application references the requesting user. -/
theorem mkApplication_applicant (now aid jid uid : Nat) (c r : Option String) (ex : AppExtras) :
    (mkApplication now aid jid uid c r ex).applicant = uid := by
  cases ex; rfl

/-- find? skips a prefix in which nothing satisfies the predicate. -/
theorem find?_append_none {α : Type} (p : α → Bool) {l₁ : List α} (l₂ : List α)
    (h : l₁.find? p = none) : (l₁ ++ l₂).find? p = l₂.find? p := by
  induction l₁ with
  | nil => simp
  | cons b t ih =>
      have hb : p b = false := by
        cases hpb : p b
        · rfl
        · rw [List.find?_cons_of_pos _ hpb] at h; exact absurd h (by simp)
      rw [List.find?_cons_of_neg _ (by simp [hb])] at h
      rw [List.cons_append, List.find?_cons_of_neg _ (by simp [hb])]
      exact ih h

/-- Updating the element with a given id (leaving the id unchanged) maps
the element find? locates to its updated form. -/
theorem find?_map_ite {α : Type} (idOf : α → Nat) (g : α → α)
    (hg : ∀ x, idOf (g x) = idOf x) (i : Nat) (l : List α) :
    ∀ (a : α), l.find? (fun x => idOf x == i) = some a →
      (l.map (fun x => if idOf x = i then g x else x)).find? (fun x => idOf x == i)
        = some (g a) := by
  induction l with
  | nil => intro a h; simp at h
  | cons b t ih =>
      intro a h
      by_cases hb : idOf b = i
      · rw [List.find?_cons_of_pos (p := fun x => idOf x == i) t (by simp [hb])] at h
        have hab : b = a := Option.some.inj h
        subst hab
        rw [List.map_cons, if_pos hb]
        exact List.find?_cons_of_pos (p := fun x => idOf x == i) _ (by simp [hg, hb])
      · rw [List.find?_cons_of_neg (p := fun x => idOf x == i) t (by simp [hb])] at h
        rw [List.map_cons, if_neg hb,
          List.find?_cons_of_neg (p := fun x => idOf x == i) _ (by simp [hb])]
        exact ih a h

/-- Newest-first ordering on jobs: later elements are no newer. -/
def NewestFirst (a b : JobR) : Prop := b.createdAt ≤ a.createdAt

/-- Membership through newest-first insertion. -/
theorem mem_insertNewest {a j : JobR} : ∀ {l : List JobR},
    a ∈ insertNewest j l ↔ a = j ∨ a ∈ l := by
  intro l
  induction l with
  | nil => simp [insertNewest]
  | cons k t ih =>
      by_cases hk : k.createdAt ≤ j.createdAt
      · simp [insertNewest, hk]
      · simp only [insertNewest, if_neg hk, List.mem_cons, ih]
        tauto

/-- Membership is preserved by the newest-first sort. -/
theorem mem_sortNewestFirst {a : JobR} : ∀ {l : List JobR},
    a ∈ sortNewestFirst l ↔ a ∈ l := by
  intro l
  induction l with
  | nil => simp [sortNewestFirst]
  | cons k t ih => simp [sortNewestFirst, mem_insertNewest, ih]

/-- Newest-first insertion adds exactly one element. -/
theorem length_insertNewest (j : JobR) : ∀ (l : List JobR),
    (insertNewest j l).length = l.length + 1 := by
  intro l
  induction l with
  | nil => rfl
  | cons k t ih =>
      by_cases hk : k.createdAt ≤ j.createdAt
      · simp [insertNewest, hk]
      · simp [insertNewest, hk, ih]

/-- The newest-first sort preserves length. -/
theorem length_sortNewestFirst : ∀ (l : List JobR),
    (sortNewestFirst l).length = l.length := by
  intro l
  induction l with
  | nil => rfl
  | cons k t ih => simp [sortNewestFirst, length_insertNewest, ih]

/-- Newest-first insertion preserves the newest-first ordering. -/
theorem pairwise_insertNewest {j : JobR} : ∀ {l : List JobR},
    l.Pairwise NewestFirst → (insertNewest j l).Pairwise NewestFirst := by
  intro l
  induction l with
  | nil => intro; simp [insertNewest]
  | cons k t ih =>
      intro hp
      rcases List.pairwise_cons.mp hp with ⟨hk, ht⟩
      by_cases hkj : k.createdAt ≤ j.createdAt
      · rw [insertNewest, if_pos hkj]
        refine List.pairwise_cons.mpr ⟨?_, hp⟩
        intro x hx
        rcases List.mem_cons.mp hx with rfl | hxt
        · exact hkj
        · exact le_trans (hk x hxt) hkj
      · rw [insertNewest, if_neg hkj]
        refine List.pairwise_cons.mpr ⟨?_, ih ht⟩
        intro x hx
        rcases mem_insertNewest.mp hx with rfl | hxt
        · exact le_of_lt (Nat.lt_of_not_le hkj)
        · exact hk x hxt

/-- The result of the newest-first sort is newest-first ordered. -/
theorem pairwise_sortNewestFirst : ∀ (l : List JobR),
    (sortNewestFirst l).Pairwise NewestFirst
  | [] => by simp [sortNewestFirst]
  | j :: t => by
      rw [sortNewestFirst]
      exact pairwise_insertNewest (pairwise_sortNewestFirst t)

/-- The storage-layer invariant enforced by the unique compound index on
(job, applicant) (models/applicationModel.js 337): no two stored
applications share their (job, applicant) pair. -/
def UniquePairs (s : Store) : Prop :=
  s.apps.Pairwise (fun a b => ¬(a.job = b.job ∧ a.applicant = b.applicant))

/-- Appending an application for a pair that passed the duplicate check
keeps the store's applications pairwise distinct. -/
theorem uniquePairs_append_new (s : Store) (now jid uid : Nat)
    (cover res : Option String) (ex : AppExtras)
    (hU : UniquePairs s) (hdup : findDuplicateApp s jid uid = none) :
    (s.apps ++ [mkApplication now s.nextId jid uid cover res ex]).Pairwise
      (fun a b => ¬(a.job = b.job ∧ a.applicant = b.applicant)) := by
  refine List.pairwise_append.mpr ⟨hU, by simp, ?_⟩
  intro a ha b hb
  rcases List.mem_singleton.mp hb with rfl
  have hfa := List.find?_eq_none.mp hdup a ha
  rw [mkApplication_job, mkApplication_applicant]
  rintro ⟨h1, h2⟩
  exact hfa (by simp [h1, h2])

/-! ### Concrete sample data used by closed theorems and witnesses -/

/-- A sample administrator account. -/
def rootAdmin : UserR :=
  { id := 1, name := "Root", email := "root@jp", password := "h1", role := "admin" }

/-- A sample regular user. -/
def alice : UserR :=
  { id := 2, name := "Alice", email := "alice@jp", password := "h2", role := "user" }

/-- A sample active job with one received application. -/
def reactJob : JobR :=
  { id := 10, title := "Senior React Developer", company := "Acme",
    location := "Remote", type := "full-time", description := "Build UIs with React",
    category := "Frontend", postedBy := 1, isActive := true,
    applicationCount := 1, createdAt := 5 }

/-- Alice's pending application to the sample job. -/
def aliceApp : AppR :=
  { id := 20, job := 10, applicant := 2, status := "pending",
    coverLetter := some "hi", createdAt := 6 }

/-- A consistent sample store: the job's counter equals its one live
application. -/
def baseStore : Store :=
  { users := [rootAdmin, alice], jobs := [reactJob], apps := [aliceApp], nextId := 30 }

/-- The store as seen by an apply handler after its existence check once a
concurrent delete has removed the job and its application. -/
def vanishedJobStore : Store :=
  { users := [rootAdmin, alice], jobs := [], apps := [], nextId := 30 }

/-- Claim C2: after any apply or application-delete operation — including
admin-initiated application deletion — the job's applicationCount equals
the number of live applications referencing it.  The admin deletion
handler (adminRoute.js DELETE /applications/:id) deletes the application
without touching the counter, so the invariant is broken there: starting
from a consistent store, the deletion succeeds (200), the live count drops
to 0, yet the stored counter remains 1.  The user-facing deletion handler
(applicationsRoute DELETE /:id) does decrement and keeps the invariant at
the same input. -/
theorem claim_C2_admin_delete_breaks_counter :
    (adminDeleteApplicationRoute baseStore 20).1 = 200
    ∧ liveAppCount (adminDeleteApplicationRoute baseStore 20).2 10 = 0
    ∧ (findJob (adminDeleteApplicationRoute baseStore 20).2 10).map JobR.applicationCount
        ≠ some ((liveAppCount (adminDeleteApplicationRoute baseStore 20).2 10 : Nat) : Int)
    ∧ (deleteApplicationRoute baseStore alice 20).1 = 200
    ∧ (findJob (deleteApplicationRoute baseStore alice 20).2 10).map JobR.applicationCount
        = some ((liveAppCount (deleteApplicationRoute baseStore alice 20).2 10 : Nat) : Int)
    ∧ (applyToJobRoute baseStore 7 10 1 none none).1 = 201
    ∧ (findJob (applyToJobRoute baseStore 7 10 1 none none).2 10).map JobR.applicationCount
        = some ((liveAppCount (applyToJobRoute baseStore 7 10 1 none none).2 10 : Nat) : Int) := by
  decide

/-- Claim C3: if, after the application is created, the increment cannot
be applied because the job no longer exists, the just-created application
must be rolled back.  Only POST /api/applications does this: its create
phase at a store whose job has vanished returns 404 and leaves the
application set unchanged.  The create phase of POST /api/jobs/:id/apply
ignores the update's result: at the same store it answers 201 and leaves
the new application behind, referencing a job that no longer exists. -/
theorem claim_C3_jobs_apply_missing_rollback :
    (applyCreatePhaseJobs vanishedJobStore 7 10 2 (some "cl") none).1 = 201
    ∧ ((applyCreatePhaseJobs vanishedJobStore 7 10 2 (some "cl") none).2).apps.length = 1
    ∧ findJob (applyCreatePhaseJobs vanishedJobStore 7 10 2 (some "cl") none).2 10 = none
    ∧ (applyCreatePhaseApps vanishedJobStore 7 10 2 (some "cl") none {}).1 = 404
    ∧ ((applyCreatePhaseApps vanishedJobStore 7 10 2 (some "cl") none {}).2).apps
        = vanishedJobStore.apps := by
  decide

/-! ### Preservation of the (job, applicant) uniqueness invariant -/

/-- Stores with equal application collections satisfy the uniqueness
invariant together. -/
theorem uniquePairs_of_apps_eq {s t : Store} (h : s.apps = t.apps) (hU : UniquePairs t) :
    UniquePairs s := by
  unfold UniquePairs at hU ⊢
  rw [h]
  exact hU

/-- POST /api/jobs/:id/apply preserves the uniqueness invariant. -/
theorem uniquePairs_applyToJobRoute (s : Store) (now jid uid : Nat) (c r : Option String)
    (hU : UniquePairs s) : UniquePairs (applyToJobRoute s now jid uid c r).2 := by
  unfold applyToJobRoute
  cases hj : findJob s jid with
  | none => exact hU
  | some j =>
      cases hd : findDuplicateApp s jid uid with
      | some d => exact hU
      | none =>
          refine uniquePairs_of_apps_eq (t :=
            { s with apps := s.apps ++ [mkApplication now s.nextId jid uid c r {}],
                     nextId := s.nextId + 1 }) ?_ ?_
          · simp [applyCreatePhaseJobs, apps_incJobApplicationCount]
          · exact uniquePairs_append_new s now jid uid c r {} hU hd

/-- The create-with-rollback phase of POST /api/applications preserves the
uniqueness invariant once the duplicate check has passed. -/
theorem uniquePairs_applyCreatePhaseApps (s : Store) (now jid uid : Nat)
    (c r : Option String) (ex : AppExtras)
    (hU : UniquePairs s) (hd : findDuplicateApp s jid uid = none) :
    UniquePairs (applyCreatePhaseApps s now jid uid c r ex).2 := by
  have happend := uniquePairs_append_new s now jid uid c r ex hU hd
  simp only [applyCreatePhaseApps]
  rcases hI : incJobApplicationCount
      { s with apps := s.apps ++ [mkApplication now s.nextId jid uid c r ex],
               nextId := s.nextId + 1 } jid 1 with ⟨o, s2⟩
  have happs : s2.apps = s.apps ++ [mkApplication now s.nextId jid uid c r ex] := by
    have h2 := apps_incJobApplicationCount
      { s with apps := s.apps ++ [mkApplication now s.nextId jid uid c r ex],
               nextId := s.nextId + 1 } jid 1
    rw [hI] at h2
    exact h2
  cases o with
  | none =>
      unfold UniquePairs
      refine List.Pairwise.sublist (List.filter_sublist _) ?_
      rw [happs]
      exact happend
  | some j' =>
      unfold UniquePairs
      rw [happs]
      exact happend

/-- POST /api/applications preserves the uniqueness invariant. -/
theorem uniquePairs_createApplicationRoute (s : Store) (now : Nat) (jobId : Option Nat)
    (uid : Nat) (c r : Option String) (ex : AppExtras) (hU : UniquePairs s) :
    UniquePairs (createApplicationRoute s now jobId uid c r ex).2 := by
  cases jobId with
  | none => simp only [createApplicationRoute]; exact hU
  | some jid =>
      cases c with
      | none => simp only [createApplicationRoute]; exact hU
      | some cl =>
          cases hj : findJob s jid with
          | none => simp only [createApplicationRoute, hj]; exact hU
          | some j =>
              cases hd : findDuplicateApp s jid uid with
              | some d => simp only [createApplicationRoute, hj, hd]; exact hU
              | none =>
                  simp only [createApplicationRoute, hj, hd]
                  exact uniquePairs_applyCreatePhaseApps s now jid uid (some cl) r ex hU hd

/-- DELETE /api/applications/:id preserves the uniqueness invariant. -/
theorem uniquePairs_deleteApplicationRoute (s : Store) (req : UserR) (aid : Nat)
    (hU : UniquePairs s) : UniquePairs (deleteApplicationRoute s req aid).2 := by
  cases ha : findApp s aid with
  | none => simp only [deleteApplicationRoute, ha]; exact hU
  | some app =>
      simp only [deleteApplicationRoute, ha]
      split
      · exact hU
      · refine uniquePairs_of_apps_eq (t :=
          { s with apps := s.apps.filter (fun a => a.id ≠ aid) }) ?_ ?_
        · simp [apps_incJobApplicationCount]
        · exact hU.sublist (List.filter_sublist _)

/-- DELETE /api/admin/applications/:id preserves the uniqueness invariant. -/
theorem uniquePairs_adminDeleteApplicationRoute (s : Store) (aid : Nat)
    (hU : UniquePairs s) : UniquePairs (adminDeleteApplicationRoute s aid).2 := by
  cases ha : findApp s aid with
  | none => simp only [adminDeleteApplicationRoute, ha]; exact hU
  | some app =>
      simp only [adminDeleteApplicationRoute, ha]
      exact hU.sublist (List.filter_sublist _)

/-- DELETE /api/jobs/:id preserves the uniqueness invariant. -/
theorem uniquePairs_deleteJobRoute (s : Store) (jid : Nat)
    (hU : UniquePairs s) : UniquePairs (deleteJobRoute s jid).2.1 := by
  cases hj : findJob s jid with
  | none => simp only [deleteJobRoute, hj]; exact hU
  | some j =>
      simp only [deleteJobRoute, hj]
      exact hU.sublist (List.filter_sublist _)

/-- DELETE /api/admin/jobs/:id preserves the uniqueness invariant. -/
theorem uniquePairs_adminDeleteJobRoute (s : Store) (jid : Nat)
    (hU : UniquePairs s) : UniquePairs (adminDeleteJobRoute s jid).2.1 := by
  cases hj : findJob s jid with
  | none => simp only [adminDeleteJobRoute, hj]; exact hU
  | some j =>
      simp only [adminDeleteJobRoute, hj]
      exact hU.sublist (List.filter_sublist _)

/-- DELETE /api/admin/users/:id preserves the uniqueness invariant. -/
theorem uniquePairs_adminDeleteUserRoute (s : Store) (uid : Nat)
    (hU : UniquePairs s) : UniquePairs (adminDeleteUserRoute s uid).2 := by
  cases hu : findUser s uid with
  | none => simp only [adminDeleteUserRoute, hu]; exact hU
  | some u =>
      simp only [adminDeleteUserRoute, hu]
      split
      · exact hU
      · exact hU.sublist (List.filter_sublist _)

/-- Status updates keep each application's (job, applicant) pair, so they
preserve the uniqueness invariant. -/
theorem uniquePairs_updateApplicationStatusRoute (s : Store) (aid : Nat) (v : String)
    (hU : UniquePairs s) : UniquePairs (updateApplicationStatusRoute s aid v).2 := by
  cases ha : findApp s aid with
  | none => simp only [updateApplicationStatusRoute, ha]; exact hU
  | some app =>
      simp only [updateApplicationStatusRoute, ha]
      unfold UniquePairs
      refine hU.map _ ?_
      intro a b hR
      by_cases h1 : a.id = aid <;> by_cases h2 : b.id = aid <;> simp [h1, h2] <;>
        exact fun hx hy => hR ⟨hx, hy⟩

/-- The admin status update preserves the uniqueness invariant. -/
theorem uniquePairs_adminUpdateApplicationStatusRoute (s : Store) (aid : Nat) (v : String)
    (hU : UniquePairs s) : UniquePairs (adminUpdateApplicationStatusRoute s aid v).2 := by
  unfold adminUpdateApplicationStatusRoute
  split
  · exact hU
  · exact uniquePairs_updateApplicationStatusRoute s aid v hU

/-- Claim C1: at most one application exists per (job, applicant) pair; a
second apply attempt by the same user to the same job — through either
POST /api/jobs/:id/apply or POST /api/applications — answers 400 and
leaves the store untouched, and every application-mutating handler
preserves the pairwise uniqueness of (job, applicant). -/
theorem claim_C1_unique_application_per_pair
    (s : Store) (now jid uid : Nat) (c r : Option String) (cl : String) (ex : AppExtras)
    (j : JobR) (hj : findJob s jid = some j)
    (d : AppR) (hd : findDuplicateApp s jid uid = some d) :
    applyToJobRoute s now jid uid c r = (400, s)
    ∧ createApplicationRoute s now (some jid) uid (some cl) r ex = (400, s)
    ∧ (UniquePairs s →
        (∀ jid2 uid2, UniquePairs (applyToJobRoute s now jid2 uid2 c r).2
          ∧ UniquePairs (createApplicationRoute s now (some jid2) uid2 (some cl) r ex).2)
        ∧ (∀ req aid, UniquePairs (deleteApplicationRoute s req aid).2)
        ∧ (∀ aid, UniquePairs (adminDeleteApplicationRoute s aid).2)
        ∧ (∀ jid2, UniquePairs (deleteJobRoute s jid2).2.1)
        ∧ (∀ jid2, UniquePairs (adminDeleteJobRoute s jid2).2.1)
        ∧ (∀ uid2, UniquePairs (adminDeleteUserRoute s uid2).2)
        ∧ (∀ aid v, UniquePairs (updateApplicationStatusRoute s aid v).2
            ∧ UniquePairs (adminUpdateApplicationStatusRoute s aid v).2)) := by
  refine ⟨?_, ?_, ?_⟩
  · simp [applyToJobRoute, hj, hd]
  · simp [createApplicationRoute, hj, hd]
  · intro hU
    refine ⟨?_, ?_, ?_, ?_, ?_, ?_, ?_⟩
    · intro jid2 uid2
      exact ⟨uniquePairs_applyToJobRoute s now jid2 uid2 c r hU,
             uniquePairs_createApplicationRoute s now (some jid2) uid2 (some cl) r ex hU⟩
    · intro req aid; exact uniquePairs_deleteApplicationRoute s req aid hU
    · intro aid; exact uniquePairs_adminDeleteApplicationRoute s aid hU
    · intro jid2; exact uniquePairs_deleteJobRoute s jid2 hU
    · intro jid2; exact uniquePairs_adminDeleteJobRoute s jid2 hU
    · intro uid2; exact uniquePairs_adminDeleteUserRoute s uid2 hU
    · intro aid v
      exact ⟨uniquePairs_updateApplicationStatusRoute s aid v hU,
             uniquePairs_adminUpdateApplicationStatusRoute s aid v hU⟩

/-- Concrete instantiation of claim C1 at the sample store: Alice already
applied to the sample job, so both apply endpoints reject her second
attempt with 400 and change nothing. -/
theorem claim_C1_witness :
    applyToJobRoute baseStore 7 10 2 none none = (400, baseStore)
    ∧ createApplicationRoute baseStore 7 (some 10) 2 (some "cl") none {} = (400, baseStore) := by
  have h := claim_C1_unique_application_per_pair baseStore 7 10 2 none none "cl" {}
      reactJob (by decide) aliceApp (by decide)
  exact ⟨h.1, h.2.1⟩

/-- Claim C4 counterexample: the claim says an admin status update
carrying any of the four enum values succeeds and stores that value, but
the admin endpoint PUT /api/admin/applications/:id/status validates
against ["pending", "accepted", "rejected"] only: sent "reviewed" — one of
the four — on an existing pending application, it answers 400 and stores
nothing. -/
theorem claim_C4_counterexample :
    adminUpdateApplicationStatusRoute baseStore 20 "reviewed" = (400, baseStore)
    ∧ (findApp (adminUpdateApplicationStatusRoute baseStore 20 "reviewed").2 20).map
        AppR.status = some "pending"
    ∧ "reviewed" ∈ ["pending", "reviewed", "accepted", "rejected"] := by
  decide

/-- Claim C4 as amended: status updates are admin-only and enforce no
predecessor/successor restriction; PUT /api/applications/:id/status stores
any submitted value (the four enum values included) for an application in
any current status, while PUT /api/admin/applications/:id/status accepts
exactly {pending, accepted, rejected}, storing the sent value, and rejects
"reviewed" with 400 leaving the store unchanged. -/
theorem claim_C4_amended_status_update (s : Store) (aid : Nat) (app : AppR)
    (h : findApp s aid = some app) :
    (∀ v : String,
        (updateApplicationStatusRoute s aid v).1 = 200
        ∧ findApp (updateApplicationStatusRoute s aid v).2 aid
            = some { app with status := v })
    ∧ (∀ v : String, v ∈ ["pending", "accepted", "rejected"] →
        (adminUpdateApplicationStatusRoute s aid v).1 = 200
        ∧ findApp (adminUpdateApplicationStatusRoute s aid v).2 aid
            = some { app with status := v })
    ∧ adminUpdateApplicationStatusRoute s aid "reviewed" = (400, s) := by
  have hupd : ∀ v : String,
      updateApplicationStatusRoute s aid v
        = (200, { s with apps := s.apps.map (fun a =>
            if a.id = aid then { a with status := v } else a) }) := by
    intro v
    simp [updateApplicationStatusRoute, h]
  have hfind : ∀ v : String,
      findApp (updateApplicationStatusRoute s aid v).2 aid = some { app with status := v } := by
    intro v
    rw [hupd v]
    exact find?_map_ite AppR.id (fun a => { a with status := v }) (fun x => rfl) aid s.apps app h
  refine ⟨fun v => ⟨by rw [hupd v], hfind v⟩, ?_, ?_⟩
  · intro v hv
    have hc : (["pending", "accepted", "rejected"].contains v) = true := by
      simp only [List.mem_cons, List.not_mem_nil, or_false] at hv
      rcases hv with rfl | rfl | rfl <;> decide
    refine ⟨?_, ?_⟩
    · simp only [adminUpdateApplicationStatusRoute, hc]
      simp [hupd v]
    · simp only [adminUpdateApplicationStatusRoute, hc]
      simpa using hfind v
  · have hc : (["pending", "accepted", "rejected"].contains "reviewed") = false := by decide
    simp [adminUpdateApplicationStatusRoute, hc]

/-- Concrete instantiation of amended claim C4: the applications-route
status update stores "reviewed" on Alice's pending application. -/
theorem claim_C4_amended_witness :
    (updateApplicationStatusRoute baseStore 20 "reviewed").1 = 200
    ∧ findApp (updateApplicationStatusRoute baseStore 20 "reviewed").2 20
        = some { aliceApp with status := "reviewed" } :=
  (claim_C4_amended_status_update baseStore 20 aliceApp (by decide)).1 "reviewed"

/-- Claim C5 counterexample: the claim says a job deletion removes the Job
and then deletes the referencing Applications, in that order; the admin
endpoint DELETE /api/admin/jobs/:id performs the cascade first and removes
the job second. -/
theorem claim_C5_counterexample :
    (adminDeleteJobRoute baseStore 10).1 = 200
    ∧ (adminDeleteJobRoute baseStore 10).2.2
        = [DeleteStep.appsCascaded 10, DeleteStep.jobRemoved 10]
    ∧ (adminDeleteJobRoute baseStore 10).2.2
        ≠ [DeleteStep.jobRemoved 10, DeleteStep.appsCascaded 10] := by
  decide

/-- Claim C5 as amended: deleting an existing job (admin-only, through
either endpoint) removes the job and deletes every application
referencing it — DELETE /api/jobs/:id removes the job first and cascades
second, DELETE /api/admin/jobs/:id cascades first and removes the job
second; after either completes the job is gone, no application references
it, and looking up any cascaded application answers 404. -/
theorem claim_C5_amended_job_delete (s : Store) (jid : Nat) (j : JobR)
    (hj : findJob s jid = some j)
    (hids : s.apps.Pairwise (fun a b => a.id ≠ b.id)) :
    ((deleteJobRoute s jid).1 = 200
      ∧ findJob (deleteJobRoute s jid).2.1 jid = none
      ∧ liveAppCount (deleteJobRoute s jid).2.1 jid = 0
      ∧ (deleteJobRoute s jid).2.2
          = [DeleteStep.jobRemoved jid, DeleteStep.appsCascaded jid]
      ∧ (∀ a ∈ s.apps, a.job = jid →
          adminGetApplicationRoute (deleteJobRoute s jid).2.1 a.id = (404, none)))
    ∧ ((adminDeleteJobRoute s jid).1 = 200
      ∧ findJob (adminDeleteJobRoute s jid).2.1 jid = none
      ∧ liveAppCount (adminDeleteJobRoute s jid).2.1 jid = 0
      ∧ (adminDeleteJobRoute s jid).2.2
          = [DeleteStep.appsCascaded jid, DeleteStep.jobRemoved jid]
      ∧ (∀ a ∈ s.apps, a.job = jid →
          adminGetApplicationRoute (adminDeleteJobRoute s jid).2.1 a.id = (404, none))) := by
  have hpost : ∀ t : Store,
      t.jobs = s.jobs.filter (fun k => k.id ≠ jid) →
      t.apps = s.apps.filter (fun a => a.job ≠ jid) →
      findJob t jid = none ∧ liveAppCount t jid = 0
        ∧ ∀ a ∈ s.apps, a.job = jid →
            adminGetApplicationRoute t a.id = (404, none) := by
    intro t htj hta
    refine ⟨?_, ?_, ?_⟩
    · rw [findJob, htj]
      refine List.find?_eq_none.mpr ?_
      intro x hx
      have hxne : x.id ≠ jid := by
        have := (List.mem_filter.mp hx).2
        simpa using this
      simp [hxne]
    · rw [liveAppCount, hta, List.length_eq_zero]
      refine List.filter_eq_nil_iff.mpr ?_
      intro a ha
      have hane : a.job ≠ jid := by
        have := (List.mem_filter.mp ha).2
        simpa using this
      simp [hane]
    · intro a ha haj
      have hnone : findApp t a.id = none := by
        rw [findApp, hta]
        refine List.find?_eq_none.mpr ?_
        intro x hx
        have hxmem := (List.mem_filter.mp hx).1
        have hxne : x.job ≠ jid := by
          have := (List.mem_filter.mp hx).2
          simpa using this
        have hxa : x ≠ a := by
          rintro rfl
          exact hxne haj
        have hxid : x.id ≠ a.id :=
          List.Pairwise.forall (fun p q hpq => hpq.symm) hids hxmem ha hxa
        simp [hxid]
      simp [adminGetApplicationRoute, hnone]
  have hD : deleteJobRoute s jid
      = (200, { s with jobs := s.jobs.filter (fun k => k.id ≠ jid),
                       apps := s.apps.filter (fun a => a.job ≠ jid) },
         [DeleteStep.jobRemoved jid, DeleteStep.appsCascaded jid]) := by
    simp [deleteJobRoute, hj]
  have hA : adminDeleteJobRoute s jid
      = (200, { s with jobs := s.jobs.filter (fun k => k.id ≠ jid),
                       apps := s.apps.filter (fun a => a.job ≠ jid) },
         [DeleteStep.appsCascaded jid, DeleteStep.jobRemoved jid]) := by
    simp [adminDeleteJobRoute, hj]
  have h1 := hpost { s with jobs := s.jobs.filter (fun k => k.id ≠ jid),
                            apps := s.apps.filter (fun a => a.job ≠ jid) } rfl rfl
  rw [hD, hA]
  exact ⟨⟨rfl, h1.1, h1.2.1, rfl, h1.2.2⟩, ⟨rfl, h1.1, h1.2.1, rfl, h1.2.2⟩⟩

/-- Concrete instantiation of amended claim C5 at the sample store: the
jobs-route deletion succeeds and Alice's cascaded application can no
longer be looked up. -/
theorem claim_C5_amended_witness :
    (deleteJobRoute baseStore 10).1 = 200
    ∧ adminGetApplicationRoute (deleteJobRoute baseStore 10).2.1 20 = (404, none) := by
  have h := claim_C5_amended_job_delete baseStore 10 reactJob (by decide) (by decide)
  exact ⟨h.1.1, h.1.2.2.2.2 aliceApp (by decide) (by decide)⟩

/-- Claim C6: admin deletion of a user is rejected with 400 and changes
nothing when the target holds the admin role; for a non-admin target the
user is deleted together with every application they submitted, other
applications survive, and the job catalog is untouched. -/
theorem claim_C6_admin_user_delete (s : Store) (uid : Nat) (u : UserR)
    (h : findUser s uid = some u) :
    (u.role = "admin" → adminDeleteUserRoute s uid = (400, s))
    ∧ (u.role ≠ "admin" →
        (adminDeleteUserRoute s uid).1 = 200
        ∧ findUser (adminDeleteUserRoute s uid).2 uid = none
        ∧ (∀ a ∈ (adminDeleteUserRoute s uid).2.apps, a.applicant ≠ uid)
        ∧ (∀ a ∈ s.apps, a.applicant ≠ uid → a ∈ (adminDeleteUserRoute s uid).2.apps)
        ∧ (adminDeleteUserRoute s uid).2.jobs = s.jobs) := by
  constructor
  · intro hrole
    simp [adminDeleteUserRoute, h, hrole]
  · intro hrole
    have hA : adminDeleteUserRoute s uid
        = (200, { s with users := s.users.filter (fun v => v.id ≠ uid),
                         apps := s.apps.filter (fun a => a.applicant ≠ uid) }) := by
      simp [adminDeleteUserRoute, h, hrole]
    rw [hA]
    refine ⟨rfl, ?_, ?_, ?_, rfl⟩
    · rw [findUser]
      refine List.find?_eq_none.mpr ?_
      intro x hx
      have hxne : x.id ≠ uid := by simpa using (List.mem_filter.mp hx).2
      simp [hxne]
    · intro a ha
      simpa using (List.mem_filter.mp ha).2
    · intro a ha hne
      exact List.mem_filter.mpr ⟨ha, by simpa using hne⟩

/-- Concrete instantiation of claim C6: deleting the admin account is
rejected, deleting Alice removes her and her application. -/
theorem claim_C6_witness :
    adminDeleteUserRoute baseStore 1 = (400, baseStore)
    ∧ (adminDeleteUserRoute baseStore 2).1 = 200
    ∧ findUser (adminDeleteUserRoute baseStore 2).2 2 = none := by
  have hAdmin := claim_C6_admin_user_delete baseStore 1 rootAdmin (by decide)
  have hAlice := claim_C6_admin_user_delete baseStore 2 alice (by decide)
  exact ⟨hAdmin.1 (by decide), (hAlice.2 (by decide)).1, (hAlice.2 (by decide)).2.1⟩

/-- Claim C7: any request whose bearer token is missing, fails
verification, or decodes to a subject with no stored user answers 401 with
the store untouched for every downstream handler (so the handler is never
reached); a verified token whose user's role is outside the route's
allowed set answers 403 with the store untouched. -/
theorem claim_C7_auth_middleware (s : Store) (roles : List String)
    (handler : UserR → Store → Nat × Store) :
    (runAuthenticated s AuthHeader.missing handler = (401, s)
      ∧ runProtected s AuthHeader.missing roles handler = (401, s))
    ∧ (runAuthenticated s AuthHeader.invalidToken handler = (401, s)
      ∧ runProtected s AuthHeader.invalidToken roles handler = (401, s))
    ∧ (∀ uid, findUser s uid = none →
        runAuthenticated s (AuthHeader.validToken uid) handler = (401, s)
        ∧ runProtected s (AuthHeader.validToken uid) roles handler = (401, s))
    ∧ (∀ uid u, findUser s uid = some u → roles.contains u.role = false →
        runProtected s (AuthHeader.validToken uid) roles handler = (403, s)) := by
  refine ⟨⟨rfl, rfl⟩, ⟨rfl, rfl⟩, ?_, ?_⟩
  · intro uid hu
    constructor <;> simp [runAuthenticated, runProtected, authenticateMw, hu]
  · intro uid u hu hrole
    have hmem : u.role ∉ roles := by simpa using hrole
    simp [runProtected, authenticateMw, authorizeMw, hu, hmem]

/-- Concrete instantiation of claim C7: Alice's valid token is turned away
from an admin route with 403, and a token for an unknown subject gets 401;
neither run touches the store. -/
theorem claim_C7_witness :
    runProtected baseStore (AuthHeader.validToken 2) ["admin"]
        (fun _ st => (200, st)) = (403, baseStore)
    ∧ runAuthenticated baseStore (AuthHeader.validToken 99)
        (fun _ st => (200, st)) = (401, baseStore) := by
  have h := claim_C7_auth_middleware baseStore ["admin"] (fun _ st => (200, st))
  exact ⟨h.2.2.2 2 alice (by decide) (by decide), (h.2.2.1 99 (by decide)).1⟩

/-- Claim C8: an authenticated profile update succeeds (200) and, whatever
the payload, never changes the stored password or role — those entries are
stripped before the update — while the remaining fields are applied. -/
theorem claim_C8_profile_update_frame (s : Store) (uid : Nat) (u : UserR) (up : UserUpdate)
    (h : findUser s uid = some u) :
    (updateProfileRoute s uid up).1 = 200
    ∧ ∃ u', findUser (updateProfileRoute s uid up).2 uid = some u'
        ∧ u'.password = u.password ∧ u'.role = u.role
        ∧ u'.name = up.name.getD u.name ∧ u'.email = up.email.getD u.email
        ∧ u'.profile = up.profile.getD u.profile := by
  refine ⟨rfl, applyUserUpdate u { up with password := none, role := none }, ?_, rfl, rfl, rfl, rfl, rfl⟩
  have hfind := find?_map_ite UserR.id
      (fun v => applyUserUpdate v { up with password := none, role := none })
      (fun x => rfl) uid s.users u h
  rw [updateProfileRoute, findUser]
  exact hfind

/-- Concrete instantiation of claim C8: a payload trying to set password
and role only renames Alice; her password hash and role survive. -/
theorem claim_C8_witness :
    (updateProfileRoute baseStore 2
        { name := some "Eve", password := some "evil", role := some "admin" }).1 = 200
    ∧ ∃ u', findUser (updateProfileRoute baseStore 2
          { name := some "Eve", password := some "evil", role := some "admin" }).2 2 = some u'
        ∧ u'.password = alice.password ∧ u'.role = alice.role
        ∧ u'.name = (some "Eve").getD alice.name
        ∧ u'.email = (none : Option String).getD alice.email
        ∧ u'.profile = (none : Option Profile).getD alice.profile :=
  claim_C8_profile_update_frame baseStore 2 alice
    { name := some "Eve", password := some "evil", role := some "admin" } (by decide)

/-- With only a search keyword, the listing query reduces to the isActive
flag and the title/company/description match. -/
theorem jobMatchesQuery_search_only (q : String) (j : JobR) :
    jobMatchesQuery (some q) none none none j = (j.isActive && jobSearchMatch q j) := by
  simp [jobMatchesQuery]

/-- Claim C9: GET /api/jobs with a search keyword returns only active jobs
whose title, company or description case-insensitively contains the
keyword, newest first and at most the page size; the first page holds
every such job whenever they fit in the page. -/
theorem claim_C9_job_search (s : Store) (q : String) (page limit : Nat) :
    (∀ j ∈ listJobsRoute s (some q) none none none page limit,
        j ∈ s.jobs ∧ j.isActive = true ∧ jobSearchMatch q j = true)
    ∧ (listJobsRoute s (some q) none none none page limit).length ≤ limit
    ∧ (listJobsRoute s (some q) none none none page limit).Pairwise NewestFirst
    ∧ ((s.jobs.filter (jobMatchesQuery (some q) none none none)).length ≤ limit →
        ∀ j ∈ s.jobs, j.isActive = true → jobSearchMatch q j = true →
          j ∈ listJobsRoute s (some q) none none none 1 limit) := by
  refine ⟨?_, ?_, ?_, ?_⟩
  · intro j hj
    simp only [listJobsRoute] at hj
    have h1 : j ∈ sortNewestFirst (s.jobs.filter (jobMatchesQuery (some q) none none none)) :=
      List.mem_of_mem_drop (List.mem_of_mem_take hj)
    have h2 := List.mem_filter.mp (mem_sortNewestFirst.mp h1)
    have hP := h2.2
    rw [jobMatchesQuery_search_only] at hP
    rcases (Bool.and_eq_true _ _).mp hP with ⟨hact, hmatch⟩
    exact ⟨h2.1, hact, hmatch⟩
  · simp only [listJobsRoute]
    exact Nat.le_trans (Nat.le_of_eq (List.length_take _ _)) (Nat.min_le_left _ _)
  · have hs : List.Sublist (listJobsRoute s (some q) none none none page limit)
        (sortNewestFirst (s.jobs.filter (jobMatchesQuery (some q) none none none))) := by
      simp only [listJobsRoute]
      exact (List.take_sublist _ _).trans (List.drop_sublist _ _)
    exact (pairwise_sortNewestFirst _).sublist hs
  · intro hlen j hj hact hmatch
    have hP : jobMatchesQuery (some q) none none none j = true := by
      rw [jobMatchesQuery_search_only, hact, hmatch]; rfl
    have hmem : j ∈ sortNewestFirst (s.jobs.filter (jobMatchesQuery (some q) none none none)) :=
      mem_sortNewestFirst.mpr (List.mem_filter.mpr ⟨hj, hP⟩)
    simp only [listJobsRoute, Nat.sub_self, Nat.zero_mul, List.drop_zero]
    rw [List.take_of_length_le]
    · exact hmem
    · rw [length_sortNewestFirst]; exact hlen

/-- Concrete instantiation of claim C9: searching the sample store for
"react" returns the sample job, whose title contains "React". -/
theorem claim_C9_witness :
    reactJob ∈ listJobsRoute baseStore (some "react") none none none 1 10 := by
  have h := claim_C9_job_search baseStore "react" 1 10
  exact h.2.2.2 (by decide) reactJob (by decide) (by decide) (by decide)

/-- Claim C10 counterexample: registration defaults the role to "user"
not only when the role field is absent: a present-but-empty role string is
JS-falsy, so it also falls back to "user", refuting the claim's "only when
role is absent does it default". -/
theorem claim_C10_counterexample :
    (registerRoute baseStore "Eve" "eve@jp" "pw" (some "")).1 = 201
    ∧ (findUserByEmail (registerRoute baseStore "Eve" "eve@jp" "pw" (some "")).2
        "eve@jp").map UserR.role = some "user"
    ∧ (some "" : Option String) ≠ (none : Option String) := by
  decide

/-- Claim C10 as amended: the unauthenticated registration endpoint stores
a client-supplied role of "admin" verbatim on any fresh email — so any
caller can mint an administrator account — and the role defaults to
"user" when the field is absent or empty (JS-falsy). -/
theorem claim_C10_amended_register (s : Store) (name email pw : String)
    (hfresh : findUserByEmail s email = none) :
    ((registerRoute s name email pw (some "admin")).1 = 201
      ∧ (findUserByEmail (registerRoute s name email pw (some "admin")).2 email).map
          UserR.role = some "admin")
    ∧ ((registerRoute s name email pw none).1 = 201
      ∧ (findUserByEmail (registerRoute s name email pw none).2 email).map
          UserR.role = some "user")
    ∧ ((registerRoute s name email pw (some "")).1 = 201
      ∧ (findUserByEmail (registerRoute s name email pw (some "")).2 email).map
          UserR.role = some "user") := by
  have hcase : ∀ ar : String,
      (findUserByEmail
          { s with users := s.users ++ [{ id := s.nextId, name := name, email := email,
                                          password := hashPassword pw, role := ar }],
                   nextId := s.nextId + 1 } email).map UserR.role = some ar := by
    intro ar
    rw [findUserByEmail]
    rw [find?_append_none _ _ hfresh]
    simp
  have hadmin : registerRoute s name email pw (some "admin")
      = (201, { s with users := s.users ++ [{ id := s.nextId, name := name, email := email,
                                              password := hashPassword pw, role := "admin" }],
                       nextId := s.nextId + 1 }) := by
    simp [registerRoute, hfresh]
  have hnone : registerRoute s name email pw none
      = (201, { s with users := s.users ++ [{ id := s.nextId, name := name, email := email,
                                              password := hashPassword pw, role := "user" }],
                       nextId := s.nextId + 1 }) := by
    simp [registerRoute, hfresh]
  have hempty : registerRoute s name email pw (some "")
      = (201, { s with users := s.users ++ [{ id := s.nextId, name := name, email := email,
                                              password := hashPassword pw, role := "user" }],
                       nextId := s.nextId + 1 }) := by
    simp [registerRoute, hfresh]
  refine ⟨⟨?_, ?_⟩, ⟨?_, ?_⟩, ⟨?_, ?_⟩⟩
  · rw [hadmin]
  · rw [hadmin]; exact hcase "admin"
  · rw [hnone]
  · rw [hnone]; exact hcase "user"
  · rw [hempty]
  · rw [hempty]; exact hcase "user"

/-- Concrete instantiation of amended claim C10: an anonymous caller
registers a fresh email with role "admin" and the created account holds
the admin role. -/
theorem claim_C10_witness :
    (registerRoute baseStore "Eve" "eve@jp" "pw" (some "admin")).1 = 201
    ∧ (findUserByEmail (registerRoute baseStore "Eve" "eve@jp" "pw" (some "admin")).2
        "eve@jp").map UserR.role = some "admin" :=
  (claim_C10_amended_register baseStore "Eve" "eve@jp" "pw" (by decide)).1

end JobPortal
